import Mathlib

/-!
Verification of the fuzzy-logic core of the BreastCancer_FuzzyInterface
repository: a shallow embedding in Lean 4 of the algebra operators
(`fuzzyLib/algebras`), the `Term` antecedent evaluator
(`fuzzyLib/knowledge/term.py`), `Clause.get_value`
(`fuzzyLib/knowledge/clause.py`), the interval type-2 fuzzy set
(`fuzzyLib/fuzzySetsFol/interval_type2_fuzzy_set.py`), the
membership-function generators
(`fuzzyLib/utils/membership_functions/membership_functions.py`) and the
mode dispatch of the factory functions (`fuzzyLib/utils/grouping_functions.py`),
together with proofs of the spec's claims about them.

Python floats are modelled by `ℚ` where the code only adds, subtracts,
multiplies, divides, compares and rounds, and by `ℝ` where it takes
`exp` / `log` / `sqrt` / `sin` (the membership-function generators).
Python exceptions are modelled by `Except` results.
-/

namespace FuzzyLib

/-! ### Algebra operands and input validation (`fuzzyLib/algebras/algebra.py`) -/

/-- An operand of an algebra operator, as received by the `validate_input`
decorator: either a Python float (scalar) or a 1-D iterable, which the
decorator converts to an `np.ndarray`.  Nested arrays are modelled by their
first dimension, which is the only thing `validate_input` inspects. -/
inductive Operand where
  | scalar (a : ℚ)
  | vec (l : List ℚ)
  deriving DecidableEq

/-- The size taken by `validate_input`: `a.shape[0]` for an iterable, `1` for
a scalar. -/
def opSize : Operand → ℕ
  | .scalar _ => 1
  | .vec l => l.length

/-- Elementwise application of a scalar kernel, following numpy broadcasting
on the operand shapes that pass `validate_input` (equal first dimensions, or
a scalar against an iterable). -/
def elementwise (f : ℚ → ℚ → ℚ) : Operand → Operand → Operand
  | .scalar a, .scalar b => .scalar (f a b)
  | .scalar a, .vec l => .vec (l.map fun b => f a b)
  | .vec l, .scalar b => .vec (l.map fun a => f a b)
  | .vec l, .vec m => .vec (List.zipWith f l m)

/-- The `validate_input` decorator from `fuzzyLib/algebras/algebra.py`:
computes both first-dimension sizes (a scalar has implicit size 1), raises
`ValueError(f'Dimensions {size_a} and {size_b} are not compatible')` when they
differ, and otherwise applies the wrapped elementwise operation. -/
def validatedOp (f : ℚ → ℚ → ℚ) (a b : Operand) : Except String Operand :=
  if opSize a ≠ opSize b then
    .error s!"Dimensions {opSize a} and {opSize b} are not compatible"
  else
    .ok (elementwise f a b)

/-- The `expand_negation_argument` decorator: no dimension check, elementwise
application of a unary kernel. -/
def expandNegation (g : ℚ → ℚ) : Operand → Operand
  | .scalar a => .scalar (g a)
  | .vec l => .vec (l.map g)

/-- Scalar kernel of `GodelAlgebra.t_norm`: `np.minimum(a, b)`. -/
def godelT (a b : ℚ) : ℚ := min a b

/-- Scalar kernel of `GodelAlgebra.s_norm`: `np.maximum(a, b)`. -/
def godelS (a b : ℚ) : ℚ := max a b

/-- Scalar kernel of `GodelAlgebra.implication`: `np.maximum(1 - a, b)`. -/
def godelImp (a b : ℚ) : ℚ := max (1 - a) b

/-- Scalar kernel of `GodelAlgebra.negation` and
`LukasiewiczAlgebra.negation`: `1 - a`. -/
def negKernel (a : ℚ) : ℚ := 1 - a

/-- Scalar kernel of `LukasiewiczAlgebra.t_norm`: `np.maximum(0.0, a + b - 1.0)`. -/
def lukT (a b : ℚ) : ℚ := max 0 (a + b - 1)

/-- Scalar kernel of `LukasiewiczAlgebra.s_norm`: `np.minimum(1.0, a + b)`. -/
def lukS (a b : ℚ) : ℚ := min 1 (a + b)

/-- Scalar kernel of `LukasiewiczAlgebra.implication`: `np.minimum(1.0, 1 - a + b)`. -/
def lukImp (a b : ℚ) : ℚ := min 1 (1 - a + b)

/-- `GodelAlgebra.t_norm` as exported (decorated with `validate_input`). -/
def GodelAlgebra.t_norm : Operand → Operand → Except String Operand := validatedOp godelT

/-- `GodelAlgebra.s_norm` as exported. -/
def GodelAlgebra.s_norm : Operand → Operand → Except String Operand := validatedOp godelS

/-- `GodelAlgebra.implication` as exported. -/
def GodelAlgebra.implication : Operand → Operand → Except String Operand := validatedOp godelImp

/-- `GodelAlgebra.negation` as exported (decorated with `expand_negation_argument`). -/
def GodelAlgebra.negation : Operand → Operand := expandNegation negKernel

/-- `LukasiewiczAlgebra.t_norm` as exported. -/
def LukasiewiczAlgebra.t_norm : Operand → Operand → Except String Operand := validatedOp lukT

/-- `LukasiewiczAlgebra.s_norm` as exported. -/
def LukasiewiczAlgebra.s_norm : Operand → Operand → Except String Operand := validatedOp lukS

/-- `LukasiewiczAlgebra.implication` as exported. -/
def LukasiewiczAlgebra.implication : Operand → Operand → Except String Operand := validatedOp lukImp

/-- `LukasiewiczAlgebra.negation` as exported. -/
def LukasiewiczAlgebra.negation : Operand → Operand := expandNegation negKernel

end FuzzyLib

namespace FuzzyLib

/-! ### Theorems for the algebra claims -/

/-- C3: for all scalar `a`, `b` in `[0,1]`, the Gödel algebra computes
`t_norm = min(a,b)`, `s_norm = max(a,b)`, `negation = 1 - a`,
`implication = max(1-a, b)`, and the Łukasiewicz algebra computes
`t_norm = max(0, a+b-1)`, `s_norm = min(1, a+b)`, `negation = 1 - a`,
`implication = min(1, 1-a+b)`, each through the exported (validated)
operators applied to scalar operands. -/
theorem algebra_operator_definitions (a b : ℚ)
    (ha0 : 0 ≤ a) (ha1 : a ≤ 1) (hb0 : 0 ≤ b) (hb1 : b ≤ 1) :
    GodelAlgebra.t_norm (.scalar a) (.scalar b) = .ok (.scalar (min a b))
    ∧ GodelAlgebra.s_norm (.scalar a) (.scalar b) = .ok (.scalar (max a b))
    ∧ GodelAlgebra.negation (.scalar a) = .scalar (1 - a)
    ∧ GodelAlgebra.implication (.scalar a) (.scalar b) = .ok (.scalar (max (1 - a) b))
    ∧ LukasiewiczAlgebra.t_norm (.scalar a) (.scalar b) = .ok (.scalar (max 0 (a + b - 1)))
    ∧ LukasiewiczAlgebra.s_norm (.scalar a) (.scalar b) = .ok (.scalar (min 1 (a + b)))
    ∧ LukasiewiczAlgebra.negation (.scalar a) = .scalar (1 - a)
    ∧ LukasiewiczAlgebra.implication (.scalar a) (.scalar b) = .ok (.scalar (min 1 (1 - a + b))) :=
  ⟨rfl, rfl, rfl, rfl, rfl, rfl, rfl, rfl⟩

/-- Witness for `algebra_operator_definitions` at `a = 1/3`, `b = 3/4`. -/
theorem algebra_operator_definitions_witness :
    (0 ≤ (1/3 : ℚ) ∧ (1/3 : ℚ) ≤ 1 ∧ 0 ≤ (3/4 : ℚ) ∧ (3/4 : ℚ) ≤ 1)
    ∧ GodelAlgebra.t_norm (.scalar (1/3)) (.scalar (3/4)) = .ok (.scalar (min (1/3) (3/4))) :=
  ⟨⟨by norm_num, by norm_num, by norm_num, by norm_num⟩,
    (algebra_operator_definitions (1/3) (3/4) (by norm_num) (by norm_num)
      (by norm_num) (by norm_num)).1⟩

/-- Łukasiewicz t-norm collapses to a single clipped sum on `[0,1]` triples. -/
lemma lukT_eq_three (a b c : ℚ) (ha1 : a ≤ 1) (hc1 : c ≤ 1) :
    lukT (lukT a b) c = max 0 (a + b + c - 2) := by
  unfold lukT
  rcases le_total (a + b - 1) 0 with h | h
  · rw [max_eq_left h, max_eq_left (by linarith), max_eq_left (by linarith)]
  · rw [max_eq_right h, max_comm (0 : ℚ) (a + b - 1 + c - 1),
      max_comm (0 : ℚ) (a + b + c - 2)]
    congr 1
    ring

/-- Łukasiewicz s-norm collapses to a single clipped sum on `[0,1]` triples. -/
lemma lukS_eq_three (a b c : ℚ) (ha0 : 0 ≤ a) (hc0 : 0 ≤ c) :
    lukS (lukS a b) c = min 1 (a + b + c) := by
  unfold lukS
  rcases le_total 1 (a + b) with h | h
  · rw [min_eq_left h, min_eq_left (by linarith), min_eq_left (by linarith)]
  · rw [min_eq_right h, add_assoc]

/-- C7: for all scalars `a`, `b`, `c` in `[0,1]`, the t-norm and s-norm scalar
kernels of both the Gödel and the Łukasiewicz algebra are commutative and
associative. -/
theorem norms_comm_assoc (a b c : ℚ)
    (ha0 : 0 ≤ a) (ha1 : a ≤ 1) (hb0 : 0 ≤ b) (hb1 : b ≤ 1)
    (hc0 : 0 ≤ c) (hc1 : c ≤ 1) :
    godelT a b = godelT b a
    ∧ godelT (godelT a b) c = godelT a (godelT b c)
    ∧ godelS a b = godelS b a
    ∧ godelS (godelS a b) c = godelS a (godelS b c)
    ∧ lukT a b = lukT b a
    ∧ lukT (lukT a b) c = lukT a (lukT b c)
    ∧ lukS a b = lukS b a
    ∧ lukS (lukS a b) c = lukS a (lukS b c) := by
  refine ⟨min_comm a b, min_assoc a b c, max_comm a b, max_assoc a b c, ?_, ?_, ?_, ?_⟩
  · unfold lukT
    rw [add_comm a b]
  · rw [lukT_eq_three a b c ha1 hc1]
    have h1 : lukT a (lukT b c) = lukT (lukT b c) a := by unfold lukT; rw [add_comm]
    rw [h1, lukT_eq_three b c a hb1 ha1]
    congr 1
    ring
  · unfold lukS
    rw [add_comm a b]
  · rw [lukS_eq_three a b c ha0 hc0]
    have h1 : lukS a (lukS b c) = lukS (lukS b c) a := by unfold lukS; rw [add_comm]
    rw [h1, lukS_eq_three b c a hb0 ha0]
    congr 1
    ring

/-- Witness for `norms_comm_assoc` at `a = 1/2`, `b = 3/4`, `c = 9/10`. -/
theorem norms_comm_assoc_witness :
    (0 ≤ (1/2 : ℚ) ∧ (1/2 : ℚ) ≤ 1 ∧ 0 ≤ (3/4 : ℚ) ∧ (3/4 : ℚ) ≤ 1
      ∧ 0 ≤ (9/10 : ℚ) ∧ (9/10 : ℚ) ≤ 1)
    ∧ lukT (lukT (1/2) (3/4)) (9/10) = lukT (1/2) (lukT (3/4) (9/10)) :=
  ⟨⟨by norm_num, by norm_num, by norm_num, by norm_num, by norm_num, by norm_num⟩,
    (norms_comm_assoc (1/2) (3/4) (9/10) (by norm_num) (by norm_num) (by norm_num)
      (by norm_num) (by norm_num) (by norm_num)).2.2.2.2.2.1⟩

/-- C2 (amended): a binary algebra operator raises the dimension error, naming
both first-dimension sizes, exactly when the two computed sizes differ; a
scalar counts as size 1, so mixing a scalar with an iterable of first
dimension at least 2 also raises (there is no scalar broadcast past the
check), while a scalar with a length-1 iterable passes. -/
theorem binary_dimension_validation (f : ℚ → ℚ → ℚ) (a b : Operand) :
    (opSize a ≠ opSize b →
      validatedOp f a b = .error s!"Dimensions {opSize a} and {opSize b} are not compatible")
    ∧ (opSize a = opSize b → validatedOp f a b = .ok (elementwise f a b))
    ∧ GodelAlgebra.t_norm (.vec [1/10, 2/10, 3/10]) (.vec [1/10, 2/10])
        = .error "Dimensions 3 and 2 are not compatible"
    ∧ GodelAlgebra.t_norm (.scalar (1/2)) (.vec [1/10, 2/10])
        = .error "Dimensions 1 and 2 are not compatible"
    ∧ GodelAlgebra.t_norm (.scalar (1/2)) (.vec [1/10])
        = .ok (.vec [godelT (1/2) (1/10)]) := by
  refine ⟨fun h => ?_, fun h => ?_, rfl, rfl, rfl⟩
  · unfold validatedOp
    rw [if_pos h]
  · unfold validatedOp
    rw [if_neg (by simp [h])]

/-- Witness for `binary_dimension_validation`: both hypothesis branches hit at
concrete operands. -/
theorem binary_dimension_validation_witness :
    (opSize (.scalar (1/2)) ≠ opSize (.vec [1/10, 2/10])
      ∧ validatedOp godelT (.scalar (1/2)) (.vec [1/10, 2/10])
          = .error "Dimensions 1 and 2 are not compatible")
    ∧ (opSize (.vec [1/10, 2/10]) = opSize (.vec [3/10, 4/10])
      ∧ validatedOp godelT (.vec [1/10, 2/10]) (.vec [3/10, 4/10])
          = .ok (elementwise godelT (.vec [1/10, 2/10]) (.vec [3/10, 4/10]))) :=
  ⟨⟨by decide,
      (binary_dimension_validation godelT (.scalar (1/2)) (.vec [1/10, 2/10])).1 (by decide)⟩,
    ⟨by decide,
      (binary_dimension_validation godelT (.vec [1/10, 2/10]) (.vec [3/10, 4/10])).2.1 (by decide)⟩⟩

/-- C2 (counterexample): `t_norm(0.5, [0.1, 0.2])` does raise — the scalar has
implicit size 1, the iterable has first-dimension size 2, and `validate_input`
raises `Dimensions 1 and 2 are not compatible`; the claim states this call
succeeds by broadcast. -/
theorem scalar_broadcast_counterexample :
    GodelAlgebra.t_norm (.scalar (1/2)) (.vec [1/10, 2/10])
      = .error "Dimensions 1 and 2 are not compatible" := rfl

/-! ### Domain, LinguisticVariable and Clause
(`fuzzyLib/knowledge/linguistic_variable.py`, `fuzzyLib/knowledge/clause.py`) -/

/-- `Domain(min, max, precision)` from `linguistic_variable.py`. -/
structure Domain where
  dmin : ℚ
  dmax : ℚ
  precision : ℚ
  deriving DecidableEq

/-- The number of points of `np.arange(min, max, precision)` for a positive
step: `⌈(max - min) / precision⌉`, clipped at zero. -/
def Domain.size (d : Domain) : ℕ := (⌈(d.dmax - d.dmin) / d.precision⌉).toNat

/-- `Domain.__call__`: the discretized points `min + k * precision` for
`k < size`, i.e. `np.arange(min, max, precision)`. -/
def Domain.points (d : Domain) : List ℚ :=
  (List.range d.size).map fun k : ℕ => d.dmin + (k : ℚ) * d.precision

/-- `LinguisticVariable(name, domain)`. -/
structure LinguisticVariable where
  name : String
  domain : Domain
  deriving DecidableEq

/-- A `Clause`: linguistic variable, gradation adjective and the values table
that the constructor precomputes by evaluating the fuzzy set's membership
function over the whole discretized domain
(`self.__values = self._calculate_values()`). -/
structure Clause where
  linguisticVariable : LinguisticVariable
  gradationAdjective : String
  values : List ℚ
  deriving DecidableEq

/-- Builds a `Clause` for a type-1 fuzzy set with membership function `f`:
the values table is `f` mapped over the domain points. -/
def mkClause (lv : LinguisticVariable) (adj : String) (f : ℚ → ℚ) : Clause :=
  ⟨lv, adj, lv.domain.points.map f⟩

/-- Rounding as performed by `np.round` on a scalar: round half to even. -/
def roundHalfEven (q : ℚ) : ℤ :=
  let f := ⌊q⌋
  let r := q - f
  if r < 1/2 then f
  else if 1/2 < r then f + 1
  else if f % 2 = 0 then f else f + 1

/-- `np.take(values, index, axis=-1)` on a 1-D table with the default
`mode='raise'`: indices in `[0, n)` select directly, indices in `[-n, 0)`
select from the end, anything else raises `IndexError`. -/
def npTake (l : List ℚ) (idx : ℤ) : Except String ℚ :=
  if 0 ≤ idx then
    match l.get? idx.toNat with
    | some v => .ok v
    | none => .error "IndexError"
  else if 0 ≤ idx + l.length then
    match l.get? (idx + l.length).toNat with
    | some v => .ok v
    | none => .error "IndexError"
  else .error "IndexError"

/-- The index computed by `Clause._find_index`:
`np.round((x - min) / precision)` as an integer. -/
def Clause.findIndex (c : Clause) (x : ℚ) : ℤ :=
  roundHalfEven ((x - c.linguisticVariable.domain.dmin) / c.linguisticVariable.domain.precision)

/-- `Clause.get_value(x)` for a scalar `x`: `_find_index` raises
`ValueError('There is no such value in the domain')` when `x > max` or
`x < min`, otherwise `np.take` looks the rounded index up in the precomputed
values table. -/
def Clause.get_value (c : Clause) (x : ℚ) : Except String ℚ :=
  if x > c.linguisticVariable.domain.dmax ∨ x < c.linguisticVariable.domain.dmin then
    .error "There is no such value in the domain"
  else
    npTake c.values (c.findIndex x)

/-- The values table of a freshly built clause has one entry per domain point. -/
lemma mkClause_values_length (lv : LinguisticVariable) (adj : String) (f : ℚ → ℚ) :
    (mkClause lv adj f).values.length = lv.domain.size := by
  unfold mkClause Domain.points
  rw [List.length_map, List.length_map, List.length_range]

/-- `np.take` at a nonnegative in-range index returns the table entry. -/
lemma npTake_ok (l : List ℚ) (idx : ℤ) (h0 : 0 ≤ idx) (hlt : idx.toNat < l.length) :
    npTake l idx = .ok (l.getD idx.toNat 0) := by
  unfold npTake
  rw [if_pos h0]
  have hsome : l.get? idx.toNat = some (l.getD idx.toNat 0) := by
    simp [List.get?_eq_getElem?, List.getElem?_eq_getElem hlt, List.getD_eq_getElem?_getD]
  rw [hsome]

/-- `np.take` at a nonnegative out-of-range index raises `IndexError`. -/
lemma npTake_oob (l : List ℚ) (idx : ℤ) (h0 : 0 ≤ idx) (hge : l.length ≤ idx.toNat) :
    npTake l idx = .error "IndexError" := by
  unfold npTake
  rw [if_pos h0]
  have hnone : l.get? idx.toNat = none := by
    rw [List.get?_eq_getElem?, List.getElem?_eq_none]
    exact hge
  rw [hnone]

/-- C4 (amended): with a positive precision, `get_value(x)` raises the
domain error exactly when `x` lies outside `[min, max]`; for `x` inside the
interval it returns the table entry at index `round((x - min) / precision)`
when that index is within the table, but raises `IndexError` when the rounded
index reaches the table length (which happens for `x` close enough to `max`,
since the table only covers `np.arange(min, max, precision)`, exclusive of
`max`); `get_value(min)` returns the entry at index 0 whenever the table is
nonempty. -/
theorem clause_get_value_contract (lv : LinguisticVariable) (adj : String)
    (f : ℚ → ℚ) (x : ℚ) (hp : 0 < lv.domain.precision) :
    ((x < lv.domain.dmin ∨ lv.domain.dmax < x) →
      (mkClause lv adj f).get_value x = .error "There is no such value in the domain")
    ∧ (lv.domain.dmin ≤ x → x ≤ lv.domain.dmax →
        ((mkClause lv adj f).findIndex x).toNat < lv.domain.size →
        (mkClause lv adj f).get_value x
          = .ok ((mkClause lv adj f).values.getD ((mkClause lv adj f).findIndex x).toNat 0))
    ∧ (lv.domain.dmin ≤ x → x ≤ lv.domain.dmax →
        lv.domain.size ≤ ((mkClause lv adj f).findIndex x).toNat →
        (mkClause lv adj f).get_value x = .error "IndexError")
    ∧ (lv.domain.dmin ≤ lv.domain.dmax → 0 < lv.domain.size →
        (mkClause lv adj f).get_value lv.domain.dmin
          = .ok ((mkClause lv adj f).values.getD 0 0)) := by
  have hidx : ∀ y : ℚ, lv.domain.dmin ≤ y → 0 ≤ (mkClause lv adj f).findIndex y := by
    intro y hy
    have hq : 0 ≤ (y - lv.domain.dmin) / lv.domain.precision :=
      div_nonneg (by linarith) (le_of_lt hp)
    unfold Clause.findIndex roundHalfEven
    simp only [mkClause]
    have hfl : (0 : ℤ) ≤ ⌊(y - lv.domain.dmin) / lv.domain.precision⌋ := by
      exact Int.floor_nonneg.mpr hq
    split
    · exact hfl
    · split
      · omega
      · split
        · exact hfl
        · omega
  have hlen := mkClause_values_length lv adj f
  have hcond : ∀ y : ℚ, lv.domain.dmin ≤ y → y ≤ lv.domain.dmax →
      ¬(y > (mkClause lv adj f).linguisticVariable.domain.dmax
        ∨ y < (mkClause lv adj f).linguisticVariable.domain.dmin) := by
    intro y hy1 hy2
    simp only [mkClause]
    push_neg
    exact ⟨hy2, hy1⟩
  refine ⟨fun h => ?_, fun h1 h2 h3 => ?_, fun h1 h2 h3 => ?_, fun h1 h2 => ?_⟩
  · unfold Clause.get_value
    rw [if_pos]
    rcases h with h | h
    · right; simpa [mkClause] using h
    · left; simpa [mkClause] using h
  · unfold Clause.get_value
    rw [if_neg (hcond x h1 h2)]
    exact npTake_ok _ _ (hidx x h1) (by rw [hlen]; exact h3)
  · unfold Clause.get_value
    rw [if_neg (hcond x h1 h2)]
    exact npTake_oob _ _ (hidx x h1) (by rw [hlen]; exact h3)
  · have hx0 : (mkClause lv adj f).findIndex lv.domain.dmin = 0 := by
      unfold Clause.findIndex roundHalfEven
      simp [mkClause]
    unfold Clause.get_value
    rw [if_neg (hcond lv.domain.dmin le_rfl h1), hx0]
    have := npTake_ok (mkClause lv adj f).values 0 le_rfl (by rw [hlen]; simpa using h2)
    simpa using this

/-- Witness for `clause_get_value_contract`: domain `(0, 1, 1/2)`, identity
membership function, `x = 1/2` (table `[0, 1/2]`, index 1). -/
theorem clause_get_value_contract_witness :
    (0 < ((1:ℚ)/2))
    ∧ ((0:ℚ) ≤ (1/2 : ℚ) → (1/2 : ℚ) ≤ 1 →
        ((mkClause ⟨"v", ⟨0, 1, 1/2⟩⟩ "a" id).findIndex (1/2)).toNat < (⟨0, 1, 1/2⟩ : Domain).size →
        (mkClause ⟨"v", ⟨0, 1, 1/2⟩⟩ "a" id).get_value (1/2)
          = .ok ((mkClause ⟨"v", ⟨0, 1, 1/2⟩⟩ "a" id).values.getD
              ((mkClause ⟨"v", ⟨0, 1, 1/2⟩⟩ "a" id).findIndex (1/2)).toNat 0)) :=
  ⟨by norm_num,
    (clause_get_value_contract ⟨"v", ⟨0, 1, 1/2⟩⟩ "a" id (1/2) (by norm_num)).2.1⟩

/-- C4 (counterexample): for the domain `(0, 1, 1/2)` the precomputed table is
`[f 0, f (1/2)]` (two entries); `x = 9/10` lies inside `[0, 1]`, yet
`round((9/10 - 0) / (1/2)) = round(1.8) = 2` is outside the table and
`get_value` raises `IndexError` — the claim says `get_value` raises only for
`x` outside `[min, max]`. -/
theorem clause_get_value_counterexample :
    ((0:ℚ) ≤ 9/10 ∧ (9/10 : ℚ) ≤ 1)
    ∧ (mkClause ⟨"v", ⟨0, 1, 1/2⟩⟩ "a" id).get_value (9/10) = .error "IndexError" := by
  constructor
  · constructor <;> norm_num
  · have hidx : (mkClause ⟨"v", ⟨0, 1, 1/2⟩⟩ "a" id).findIndex (9/10) = 2 := by
      unfold Clause.findIndex roundHalfEven
      norm_num [mkClause]
    unfold Clause.get_value
    rw [if_neg (by norm_num [mkClause]), hidx]
    refine npTake_oob _ _ (by norm_num) ?_
    rw [mkClause_values_length]
    unfold Domain.size
    norm_num

/-! ### Term, the antecedent evaluator (`fuzzyLib/knowledge/term.py`) -/

/-- The algebra object a `Term` carries: the scalar t-norm and s-norm used by
`apply_dict_t_norm` / `apply_dict_s_norm`.  `Term.fire` is always evaluated on
the scalar membership degrees of the assignment dictionary, where
`validate_input` never raises (both sizes are 1), so the scalar kernels are
the exact behaviour. -/
structure Algebra where
  t_norm : ℚ → ℚ → ℚ
  s_norm : ℚ → ℚ → ℚ

/-- The Gödel algebra instance as captured by a `Term`. -/
def godelAlgebra : Algebra := ⟨godelT, godelS⟩

/-- The Łukasiewicz algebra instance as captured by a `Term`. -/
def lukasiewiczAlgebra : Algebra := ⟨lukT, lukS⟩

/-- A `Term` object: the algebra captured at construction, the name, and the
firing function from an assignment `Dict[Clause, MembershipDegree]` to a
membership degree. -/
structure Term where
  algebra : Algebra
  name : String
  fire : (Clause → ℚ) → ℚ

/-- `Term(algebra, clause)`, the leaf construction path: the name defaults to
`variable.name + '_' + adjective` and the firing function is
`partial(dict_clause, clause=clause)`, i.e. the pure dictionary lookup
`dict_[clause]`. -/
def Term.ofClause (alg : Algebra) (c : Clause) : Term :=
  { algebra := alg
    name := c.linguisticVariable.name ++ "_" ++ c.gradationAdjective
    fire := fun dict => dict c }

/-- `Term.__and__`: a new `Term` with the left operand's algebra, the name
`self.name + ' & ' + other.name`, and the firing function
`apply_dict_t_norm`, which evaluates both operands on the same assignment and
folds them with the captured algebra's t-norm. -/
def Term.and (t other : Term) : Term :=
  { algebra := t.algebra
    name := t.name ++ " & " ++ other.name
    fire := fun dict => t.algebra.t_norm (t.fire dict) (other.fire dict) }

/-- `Term.__or__`: as `__and__` but with the s-norm and `' | '`. -/
def Term.or (t other : Term) : Term :=
  { algebra := t.algebra
    name := t.name ++ " | " ++ other.name
    fire := fun dict => t.algebra.s_norm (t.fire dict) (other.fire dict) }

/-- `Term.__and__` / `__or__` only ever construct and return a fresh `Term`;
the two operand objects are read, never written.  This embedding of one call
returns, alongside the fresh node, the states of the two operands after the
call. -/
def Term.andStep (t other : Term) : Term × Term × Term := (t.and other, t, other)

/-- The `__or__` analogue of `Term.andStep`. -/
def Term.orStep (t other : Term) : Term × Term × Term := (t.or other, t, other)

/-- A bottom-up AND/OR expression shape over clauses, used to state algebra
propagation through arbitrarily derived `Term` trees. -/
inductive TermExpr where
  | leaf (c : Clause)
  | and (l r : TermExpr)
  | or (l r : TermExpr)

/-- Builds the `Term` tree of a `TermExpr` bottom-up, every leaf constructed
with the same algebra, composites built by `__and__` / `__or__`. -/
def buildTerm (alg : Algebra) : TermExpr → Term
  | .leaf c => Term.ofClause alg c
  | .and l r => (buildTerm alg l).and (buildTerm alg r)
  | .or l r => (buildTerm alg l).or (buildTerm alg r)

/-- First example clause of the C1 example (`C1`, value 3/10). -/
def clauseC1 : Clause := ⟨⟨"v", ⟨0, 1, 1⟩⟩, "C1", []⟩

/-- Second example clause of the C1 example (`C2`, value 7/10). -/
def clauseC2 : Clause := ⟨⟨"v", ⟨0, 1, 1⟩⟩, "C2", []⟩

/-- The example assignment `{C1: 0.3, C2: 0.7}`. -/
def exampleDict : Clause → ℚ := fun c => if c = clauseC1 then 3/10 else 7/10

/-- C1: a leaf `Term`'s firing function is the pure dictionary lookup of its
bound clause; `(T1 & T2).fire` folds the operands' firings with the captured
algebra's t-norm and `(T1 | T2).fire` with its s-norm, the new names being the
operand names joined by `' & '` / `' | '`; and on the example assignment
`{C1: 0.3, C2: 0.7}` under the Gödel algebra the AND-term fires 0.3 and the
OR-term fires 0.7. -/
theorem term_fire_semantics (alg : Algebra) (c : Clause) (t u : Term)
    (dict : Clause → ℚ) :
    (Term.ofClause alg c).fire dict = dict c
    ∧ (t.and u).fire dict = t.algebra.t_norm (t.fire dict) (u.fire dict)
    ∧ (t.or u).fire dict = t.algebra.s_norm (t.fire dict) (u.fire dict)
    ∧ (t.and u).name = t.name ++ " & " ++ u.name
    ∧ (t.or u).name = t.name ++ " | " ++ u.name
    ∧ ((Term.ofClause godelAlgebra clauseC1).and (Term.ofClause godelAlgebra clauseC2)).fire
        exampleDict = 3/10
    ∧ ((Term.ofClause godelAlgebra clauseC1).or (Term.ofClause godelAlgebra clauseC2)).fire
        exampleDict = 7/10 := by
  refine ⟨rfl, rfl, rfl, rfl, rfl, ?_, ?_⟩
  · show godelT (exampleDict clauseC1) (exampleDict clauseC2) = 3/10
    rw [show exampleDict clauseC1 = 3/10 from if_pos rfl,
      show exampleDict clauseC2 = 7/10 from if_neg (by decide)]
    unfold godelT
    norm_num
  · show godelS (exampleDict clauseC1) (exampleDict clauseC2) = 7/10
    rw [show exampleDict clauseC1 = 3/10 from if_pos rfl,
      show exampleDict clauseC2 = 7/10 from if_neg (by decide)]
    unfold godelS
    norm_num

/-- C9: combining two `Term`s creates a fresh node and leaves both operands
untouched (the post-call operand states equal the pre-call ones); the fresh
node's firing function reads the operands' unchanged firing functions; the
captured algebra is taken from the operands (the left one) and propagates
unchanged through every tree derived bottom-up from leaves sharing one
algebra. -/
theorem term_combination_frame (t u : Term) (alg : Algebra) (e : TermExpr) :
    (t.andStep u).2.1 = t ∧ (t.andStep u).2.2 = u
    ∧ (t.orStep u).2.1 = t ∧ (t.orStep u).2.2 = u
    ∧ (t.and u).algebra = t.algebra ∧ (t.or u).algebra = t.algebra
    ∧ (t.and u).fire = (fun dict => t.algebra.t_norm (t.fire dict) (u.fire dict))
    ∧ (t.or u).fire = (fun dict => t.algebra.s_norm (t.fire dict) (u.fire dict))
    ∧ (buildTerm alg e).algebra = alg := by
  refine ⟨rfl, rfl, rfl, rfl, rfl, rfl, rfl, rfl, ?_⟩
  induction e with
  | leaf c => rfl
  | and l r ihl ihr => exact ihl
  | or l r ihl ihr => exact ihl

/-! ### Interval type-2 fuzzy sets
(`fuzzyLib/fuzzySetsFol/interval_type2_fuzzy_set.py`) -/

/-- Mapping commutes with `List.any` (general-type version). -/
lemma list_any_map {α β : Type} (f : α → β) (l : List α) (p : β → Bool) :
    (l.map f).any p = l.any fun a => p (f a) := by
  induction l with
  | nil => rfl
  | cons h t ih => simp [List.any_cons, ih]

/-- An `IntervalType2FuzzySet`: the constructor only checks that both
arguments are callable (always true here) and stores the two membership
functions unchecked — in particular it does not compare them. -/
structure IntervalType2FuzzySet where
  lmf : ℚ → ℚ
  umf : ℚ → ℚ

/-- `IntervalType2FuzzySet.__call__` on a vector input: evaluates both rows,
raises when `np.any(lower_membership > upper_membership)`, and otherwise
returns `np.array([lower_membership, upper_membership])`. -/
def IntervalType2FuzzySet.callVec (s : IntervalType2FuzzySet) (xs : List ℚ) :
    Except String (List ℚ × List ℚ) :=
  let lower := xs.map s.lmf
  let upper := xs.map s.umf
  if (lower.zip upper).any (fun p => decide (p.2 < p.1)) then
    .error "Lower membership function returned higher value than upper membership function"
  else
    .ok (lower, upper)

/-- `IntervalType2FuzzySet.__call__` on a scalar input. -/
def IntervalType2FuzzySet.callScalar (s : IntervalType2FuzzySet) (x : ℚ) :
    Except String (ℚ × ℚ) :=
  if s.umf x < s.lmf x then
    .error "Lower membership function returned higher value than upper membership function"
  else
    .ok (s.lmf x, s.umf x)

/-- C6: constructing an interval type-2 set never compares the two membership
functions; calling it raises exactly when `lower(x) > upper(x)` at some
evaluated point, and otherwise returns the two rows `[lower_row, upper_row]`,
each row the evaluation of one membership function over the inputs in
position, for scalar and vector inputs alike. -/
theorem it2_call_invariant (lmf umf : ℚ → ℚ) (xs : List ℚ) (x : ℚ) :
    (IntervalType2FuzzySet.mk lmf umf).lmf = lmf
    ∧ (IntervalType2FuzzySet.mk lmf umf).umf = umf
    ∧ ((∃ y ∈ xs, umf y < lmf y) →
        (IntervalType2FuzzySet.mk lmf umf).callVec xs
          = .error "Lower membership function returned higher value than upper membership function")
    ∧ ((∀ y ∈ xs, lmf y ≤ umf y) →
        (IntervalType2FuzzySet.mk lmf umf).callVec xs = .ok (xs.map lmf, xs.map umf))
    ∧ (umf x < lmf x →
        (IntervalType2FuzzySet.mk lmf umf).callScalar x
          = .error "Lower membership function returned higher value than upper membership function")
    ∧ (lmf x ≤ umf x →
        (IntervalType2FuzzySet.mk lmf umf).callScalar x = .ok (lmf x, umf x)) := by
  have hany : ((xs.map lmf).zip (xs.map umf)).any (fun p => decide (p.2 < p.1))
      = xs.any fun y => decide (umf y < lmf y) := by
    rw [List.zip_map', list_any_map]
  refine ⟨rfl, rfl, fun h => ?_, fun h => ?_, fun h => ?_, fun h => ?_⟩
  · unfold IntervalType2FuzzySet.callVec
    rw [if_pos]
    rw [hany, List.any_eq_true]
    obtain ⟨y, hy, hlt⟩ := h
    exact ⟨y, hy, by simpa using hlt⟩
  · unfold IntervalType2FuzzySet.callVec
    rw [if_neg]
    rw [hany]
    simp only [List.any_eq_true, not_exists]
    rintro y ⟨hy, hlt⟩
    exact absurd (h y hy) (by simpa using hlt)
  · unfold IntervalType2FuzzySet.callScalar
    rw [if_pos h]
  · unfold IntervalType2FuzzySet.callScalar
    rw [if_neg (not_lt.mpr h)]

/-- Witness for `it2_call_invariant`: with `lower = id` and `upper = id + 1`
on inputs `[0, 1]` the call returns the aligned rows; with the functions
swapped, the call on the scalar `0` raises. -/
theorem it2_call_invariant_witness :
    (IntervalType2FuzzySet.mk id (fun q => q + 1)).callVec [0, 1]
      = .ok ([0, 1].map id, [0, 1].map fun q => q + 1)
    ∧ (IntervalType2FuzzySet.mk (fun q => q + 1) id).callScalar 0
      = .error "Lower membership function returned higher value than upper membership function" :=
  ⟨(it2_call_invariant id (fun q => q + 1) [0, 1] 0).2.2.2.1
      (by intro y hy; simp),
    (it2_call_invariant (fun q => q + 1) id [0, 1] 0).2.2.2.2.1 (by norm_num)⟩

/-! ### Membership-function generation
(`fuzzyLib/utils/membership_functions/membership_functions.py`).
These functions work with `exp`, `log`, `sqrt` and `sin`, so they are
modelled over `ℝ`. -/

/-- `gaussian(mean, sigma, max_value)`:
`max_value * np.exp(-(((mean - value) ** 2) / (2 * sigma ** 2)))`. -/
noncomputable def gaussianF (mean sigma maxValue : ℝ) : ℝ → ℝ :=
  fun value => maxValue * Real.exp (-((mean - value) ^ 2 / (2 * sigma ^ 2)))

/-- `__calculate_sigma(first_mean, second_mean, max_value)`.  The source
solves `exp(-(x - m1)² / (2σ²)) = max_value / 2` and
`exp(-(x - m2)² / (2σ²)) = max_value / 2` for `(x, σ)` with sympy and keeps
the root with `σ ≥ 0`; that root is the closed form embedded here (theorem
`calculate_sigma_solves` checks that it satisfies both equations with the
nonnegative sign, at the crossing point `x = (m1 + m2) / 2`). -/
noncomputable def calculate_sigma (firstMean secondMean maxValue : ℝ) : ℝ :=
  |secondMean - firstMean| / (2 * Real.sqrt (2 * Real.log (2 / maxValue)))

/-- Square of the solved sigma. -/
lemma calculate_sigma_sq (m1 m2 maxValue : ℝ) (h0 : 0 < maxValue) (h2 : maxValue < 2) :
    (calculate_sigma m1 m2 maxValue) ^ 2 = (m2 - m1) ^ 2 / (8 * Real.log (2 / maxValue)) := by
  have hL : 0 < Real.log (2 / maxValue) := Real.log_pos ((one_lt_div h0).mpr h2)
  unfold calculate_sigma
  rw [div_pow, mul_pow, sq_abs, Real.sq_sqrt (by linarith)]
  ring

/-- The embedded sigma is what the sympy solve selects: at the crossing point
`x = (m1 + m2) / 2` both Gaussian equations hold at height `max_value / 2`,
and the root is nonnegative. -/
theorem calculate_sigma_solves (m1 m2 maxValue : ℝ) (hne : m1 ≠ m2)
    (h0 : 0 < maxValue) (h2 : maxValue < 2) :
    Real.exp (-(((m1 + m2) / 2 - m1) ^ 2 / (2 * (calculate_sigma m1 m2 maxValue) ^ 2)))
        = maxValue / 2
    ∧ Real.exp (-(((m1 + m2) / 2 - m2) ^ 2 / (2 * (calculate_sigma m1 m2 maxValue) ^ 2)))
        = maxValue / 2
    ∧ 0 ≤ calculate_sigma m1 m2 maxValue := by
  have hL : 0 < Real.log (2 / maxValue) := Real.log_pos ((one_lt_div h0).mpr h2)
  have hΔ : (m2 - m1) ^ 2 ≠ 0 := pow_ne_zero 2 (sub_ne_zero.mpr (Ne.symm hne))
  have hexp : Real.exp (-Real.log (2 / maxValue)) = maxValue / 2 := by
    rw [Real.exp_neg, Real.exp_log (by positivity), inv_div]
  have harg1 : ((m1 + m2) / 2 - m1) ^ 2 / (2 * (calculate_sigma m1 m2 maxValue) ^ 2)
      = Real.log (2 / maxValue) := by
    rw [calculate_sigma_sq m1 m2 maxValue h0 h2]
    rw [show ((m1 + m2) / 2 - m1) ^ 2 = (m2 - m1) ^ 2 / 4 by ring]
    field_simp
    ring
  have harg2 : ((m1 + m2) / 2 - m2) ^ 2 / (2 * (calculate_sigma m1 m2 maxValue) ^ 2)
      = Real.log (2 / maxValue) := by
    rw [calculate_sigma_sq m1 m2 maxValue h0 h2]
    rw [show ((m1 + m2) / 2 - m2) ^ 2 = (m2 - m1) ^ 2 / 4 by ring]
    field_simp
    ring
  refine ⟨by rw [harg1, hexp], by rw [harg2, hexp], ?_⟩
  unfold calculate_sigma
  positivity

/-- `generate_equal_gausses(number_of_gausses, start, end, max_value)` with
the default `mid_ev=None`: `domain = end - start`,
`cross_points = (number_of_gausses - 2) + 1`, one shared sigma solved from
the first two means `0` and `domain / cross_points`, and the i-th Gaussian
centred at `(domain / cross_points) * i`. -/
noncomputable def generate_equal_gausses (numberOfGausses : ℕ) (start stop maxValue : ℝ) :
    List (ℝ → ℝ) :=
  let domain := stop - start
  let crossPoints : ℝ := (numberOfGausses : ℝ) - 1
  let stdDeviation := calculate_sigma 0 (domain / crossPoints) maxValue
  (List.range numberOfGausses).map fun i : ℕ =>
    gaussianF (domain / crossPoints * (i : ℝ)) stdDeviation maxValue

/-- `getD` of a map over a range picks the function value. -/
lemma getD_map_range {α : Type} (f : ℕ → α) (n i : ℕ) (h : i < n) (d : α) :
    ((List.range n).map f).getD i d = f i := by
  rw [List.getD_eq_getElem?_getD, List.getElem?_map, List.getElem?_range h]
  rfl

/-- A Gaussian with the solved shared sigma evaluates to `max_value² / 2` at
any point at horizontal distance `|step| / 2` from its mean. -/
lemma gaussianF_at_half_step (step maxValue m x : ℝ) (hs : step ≠ 0)
    (h0 : 0 < maxValue) (h2 : maxValue < 2) (hx : (m - x) ^ 2 = step ^ 2 / 4) :
    gaussianF m (calculate_sigma 0 step maxValue) maxValue x = maxValue ^ 2 / 2 := by
  have hL : 0 < Real.log (2 / maxValue) := Real.log_pos ((one_lt_div h0).mpr h2)
  have hΔ : step ^ 2 ≠ 0 := pow_ne_zero 2 hs
  have hσ2 : (calculate_sigma 0 step maxValue) ^ 2
      = step ^ 2 / (8 * Real.log (2 / maxValue)) := by
    rw [calculate_sigma_sq 0 step maxValue h0 h2, sub_zero]
  unfold gaussianF
  rw [hx, hσ2]
  rw [show step ^ 2 / 4 / (2 * (step ^ 2 / (8 * Real.log (2 / maxValue))))
      = Real.log (2 / maxValue) by field_simp; ring]
  rw [Real.exp_neg, Real.exp_log (by positivity), inv_div]
  ring

/-- The mean spacing used by `generate_equal_gausses`:
`domain / cross_points = (end - start) / (n - 1)`. -/
noncomputable def equalStep (n : ℕ) (start stop : ℝ) : ℝ := (stop - start) / ((n : ℝ) - 1)

/-- C5 (amended): for `n ≥ 2`, `start < end`, `0 < max_value < 2`,
`generate_equal_gausses(n, start, end, max_value)` returns `n` Gaussians with
means evenly spaced with step `(end - start) / (n - 1)` starting at 0 (not at
`start`), sharing the single solved sigma
`step / (2·sqrt(2·ln(2 / max_value)))`; every two adjacent Gaussians
intersect at the midpoint of their means at height `max_value² / 2` — which
is `max_value / 2` exactly when `max_value = 1`, the closed form
`step / (2·sqrt(2·ln 2))` likewise holding for `max_value = 1` only; in
particular for `generate_equal_gausses(3, 0, 1)` (where `max_value = 1`) two
ADJACENT Gaussians cross at height exactly 0.5, while the two outer ones
cross at height 1/16 (see the counterexample). -/
theorem equal_gausses_cross_point (n : ℕ) (start stop maxValue : ℝ) (i : ℕ)
    (hn : 2 ≤ n) (hlt : start < stop) (h0 : 0 < maxValue) (h2 : maxValue < 2)
    (hi : i + 1 < n) :
    (generate_equal_gausses n start stop maxValue).length = n
    ∧ (generate_equal_gausses n start stop maxValue).getD i (fun _ => 0)
        = gaussianF (equalStep n start stop * i)
            (calculate_sigma 0 (equalStep n start stop) maxValue) maxValue
    ∧ (generate_equal_gausses n start stop maxValue).getD (i + 1) (fun _ => 0)
        = gaussianF (equalStep n start stop * (i + 1))
            (calculate_sigma 0 (equalStep n start stop) maxValue) maxValue
    ∧ calculate_sigma 0 (equalStep n start stop) maxValue
        = equalStep n start stop / (2 * Real.sqrt (2 * Real.log (2 / maxValue)))
    ∧ ((generate_equal_gausses n start stop maxValue).getD i (fun _ => 0))
        ((equalStep n start stop * i + equalStep n start stop * (i + 1)) / 2)
        = maxValue ^ 2 / 2
    ∧ ((generate_equal_gausses n start stop maxValue).getD (i + 1) (fun _ => 0))
        ((equalStep n start stop * i + equalStep n start stop * (i + 1)) / 2)
        = maxValue ^ 2 / 2
    ∧ (maxValue = 1 → ((generate_equal_gausses n start stop maxValue).getD i (fun _ => 0))
        ((equalStep n start stop * i + equalStep n start stop * (i + 1)) / 2) = 1 / 2) := by
  have hn1 : (0 : ℝ) < (n : ℝ) - 1 := by
    have h2n : (2 : ℝ) ≤ (n : ℝ) := by exact_mod_cast hn
    linarith
  have hstep : 0 < equalStep n start stop := by
    unfold equalStep
    exact div_pos (by linarith) hn1
  have hlen : (generate_equal_gausses n start stop maxValue).length = n := by
    unfold generate_equal_gausses
    rw [List.length_map, List.length_range]
  have hgetI : (generate_equal_gausses n start stop maxValue).getD i (fun _ => 0)
      = gaussianF (equalStep n start stop * i)
          (calculate_sigma 0 (equalStep n start stop) maxValue) maxValue := by
    unfold generate_equal_gausses equalStep
    rw [getD_map_range _ _ _ (by omega)]
  have hgetS : (generate_equal_gausses n start stop maxValue).getD (i + 1) (fun _ => 0)
      = gaussianF (equalStep n start stop * (i + 1))
          (calculate_sigma 0 (equalStep n start stop) maxValue) maxValue := by
    unfold generate_equal_gausses equalStep
    rw [getD_map_range _ _ _ hi]
    push_cast
    rfl
  have hvalI : gaussianF (equalStep n start stop * i)
      (calculate_sigma 0 (equalStep n start stop) maxValue) maxValue
      ((equalStep n start stop * i + equalStep n start stop * (i + 1)) / 2)
      = maxValue ^ 2 / 2 :=
    gaussianF_at_half_step (equalStep n start stop) maxValue _ _ (ne_of_gt hstep) h0 h2
      (by ring)
  have hvalS : gaussianF (equalStep n start stop * (i + 1))
      (calculate_sigma 0 (equalStep n start stop) maxValue) maxValue
      ((equalStep n start stop * i + equalStep n start stop * (i + 1)) / 2)
      = maxValue ^ 2 / 2 :=
    gaussianF_at_half_step (equalStep n start stop) maxValue _ _ (ne_of_gt hstep) h0 h2
      (by ring)
  refine ⟨hlen, hgetI, hgetS, ?_, by rw [hgetI]; exact hvalI, by rw [hgetS]; exact hvalS, ?_⟩
  · unfold calculate_sigma
    rw [sub_zero, abs_of_pos hstep]
  · intro h1
    rw [hgetI, hvalI, h1]
    norm_num

/-- Witness for `equal_gausses_cross_point` at `n = 3`, `start = 0`,
`end = 1`, `max_value = 1`, adjacent pair `i = 0`: the first two Gaussians
cross at height `1/2`. -/
theorem equal_gausses_cross_point_witness :
    ((2 : ℕ) ≤ 3 ∧ (0 : ℝ) < 1 ∧ (0 : ℝ) < 1 ∧ (1 : ℝ) < 2 ∧ (0 : ℕ) + 1 < 3)
    ∧ ((1 : ℝ) = 1 → ((generate_equal_gausses 3 0 1 1).getD 0 (fun _ => 0))
        ((equalStep 3 0 1 * (0 : ℕ) + equalStep 3 0 1 * ((0 : ℕ) + 1)) / 2) = 1 / 2) :=
  ⟨⟨by norm_num, by norm_num, by norm_num, by norm_num, by norm_num⟩,
    (equal_gausses_cross_point 3 0 1 1 0 (by norm_num) (by norm_num) (by norm_num)
      (by norm_num) (by norm_num)).2.2.2.2.2.2⟩

/-- C5 (counterexample): in `generate_equal_gausses(3, 0, 1)` the two OUTER
Gaussians (means 0 and 1, shared sigma solved from means 0 and 1/2) both
evaluate to `1/16` at `x = 1/2`, the midpoint where they cross — not within
`1e-6` of the claimed height 0.5; moreover for `max_value = 1/2` the solved
sigma is `1 / (2·sqrt(2·ln 4))`, not the claimed closed form
`|m2 - m1| / (2·sqrt(2·ln 2))`. -/
theorem equal_gausses_outer_counterexample :
    ((generate_equal_gausses 3 0 1 1).getD 0 (fun _ => 0)) (1 / 2) = 1 / 16
    ∧ ((generate_equal_gausses 3 0 1 1).getD 2 (fun _ => 0)) (1 / 2) = 1 / 16
    ∧ ¬(|(1 : ℝ) / 16 - 1 / 2| ≤ 1 / 1000000)
    ∧ calculate_sigma 0 1 (1 / 2) ≠ 1 / (2 * Real.sqrt (2 * Real.log 2)) := by
  have hlog2 : (0 : ℝ) < Real.log 2 := Real.log_pos one_lt_two
  have hσ2 : (calculate_sigma 0 (1 / 2) 1) ^ 2 = 1 / (32 * Real.log 2) := by
    rw [calculate_sigma_sq 0 (1 / 2) 1 one_pos one_lt_two, sub_zero, div_one]
    rw [show ((1 : ℝ) / 2) ^ 2 = 1 / 4 by norm_num, div_div]
    norm_num
    ring
  have hexp16 : Real.exp (-(4 * Real.log 2)) = 1 / 16 := by
    rw [Real.exp_neg, show (4 : ℝ) * Real.log 2 = ((4 : ℕ) : ℝ) * Real.log 2 by norm_num,
      Real.exp_nat_mul, Real.exp_log two_pos]
    norm_num
  have hval : ∀ m : ℝ, (m - 1 / 2) ^ 2 = 1 / 4 →
      gaussianF m (calculate_sigma 0 (1 / 2) 1) 1 (1 / 2) = 1 / 16 := by
    intro m hm
    unfold gaussianF
    rw [hm, hσ2]
    rw [show (1 : ℝ) / 4 / (2 * (1 / (32 * Real.log 2))) = 4 * Real.log 2 by
      field_simp; ring]
    rw [hexp16]
    norm_num
  have hget0 : (generate_equal_gausses 3 0 1 1).getD 0 (fun _ => 0)
      = gaussianF 0 (calculate_sigma 0 (1 / 2) 1) 1 := by
    unfold generate_equal_gausses
    rw [getD_map_range _ _ _ (by norm_num)]
    rw [show ((1 : ℝ) - 0) / (((3 : ℕ) : ℝ) - 1) = 1 / 2 by norm_num]
    rw [show ((1 : ℝ) / 2) * ((0 : ℕ) : ℝ) = 0 by norm_num]
  have hget2 : (generate_equal_gausses 3 0 1 1).getD 2 (fun _ => 0)
      = gaussianF 1 (calculate_sigma 0 (1 / 2) 1) 1 := by
    unfold generate_equal_gausses
    rw [getD_map_range _ _ _ (by norm_num)]
    rw [show ((1 : ℝ) - 0) / (((3 : ℕ) : ℝ) - 1) = 1 / 2 by norm_num]
    rw [show ((1 : ℝ) / 2) * ((2 : ℕ) : ℝ) = 1 by norm_num]
  refine ⟨?_, ?_, ?_, ?_⟩
  · rw [hget0]
    exact hval 0 (by norm_num)
  · rw [hget2]
    exact hval 1 (by norm_num)
  · rw [show |(1 : ℝ) / 16 - 1 / 2| = 7 / 16 by rw [abs_of_neg (by norm_num)]; norm_num]
    norm_num
  · have hlog4 : Real.log (2 / (1 / 2)) = 2 * Real.log 2 := by
      rw [show (2 : ℝ) / (1 / 2) = 2 ^ 2 by norm_num, Real.log_pow]
      norm_num
    unfold calculate_sigma
    rw [sub_zero, abs_one, hlog4]
    have hlt : Real.sqrt (2 * Real.log 2) < Real.sqrt (2 * (2 * Real.log 2)) := by
      apply Real.sqrt_lt_sqrt (by linarith)
      linarith
    have hpos : 0 < Real.sqrt (2 * Real.log 2) := Real.sqrt_pos.mpr (by linarith)
    have hne : 1 / (2 * Real.sqrt (2 * (2 * Real.log 2))) < 1 / (2 * Real.sqrt (2 * Real.log 2)) := by
      apply one_div_lt_one_div_of_lt (by linarith)
      linarith
    exact ne_of_lt hne
/-- `complex_gaussian(mean, first_sigma, second_sigma, min, max, max_value)`:
an asymmetric Gaussian with a left and a right sigma, zero outside the
support window `[min, max]`; the infinite default bounds are modelled with
`EReal` (`⊥` for `-np.inf`, `⊤` for `np.inf`). -/
noncomputable def complex_gaussian (mean firstSigma secondSigma : ℝ)
    (lo hi : EReal) (maxValue : ℝ) : ℝ → ℝ :=
  fun value =>
    if lo ≤ (value : EReal) ∧ (value : EReal) ≤ hi then
      if value < mean then gaussianF mean firstSigma maxValue value
      else gaussianF mean secondSigma maxValue value
    else 0

/-- `__calculate_expected_value(x, middle) = 0.5 * sin(x) + middle`. -/
noncomputable def calculate_expected_value (x middle : ℝ) : ℝ := 0.5 * Real.sin x + middle

/-- The modelled `__calculate_sigma` as called by
`generate_progressive_gausses`, including its failure modes.  The sympy solve
of the two cross-point equations only yields a usable root `σ ≥ 0` when the
two means differ and `0 < max_value < 2`: for equal means the system is
degenerate and the solution dicts carry no `sigma` key (`KeyError`); for
`max_value ≥ 2` there is no real root — either no solution at all
(`IndexError` on the empty filtered list) or complex roots on which the
`>= 0` filter raises `TypeError`; likewise `max_value ≤ 0` leaves nothing to
solve.  These concrete exception classes are collapsed to `Except` error
values; on the success domain the root is the closed form
`calculate_sigma`. -/
noncomputable def solveSigma (firstMean secondMean maxValue : ℝ) : Except String ℝ :=
  if firstMean = secondMean then
    .error "sigma solve failed: degenerate system for equal means"
  else if maxValue ≤ 0 ∨ 2 ≤ maxValue then
    .error "sigma solve failed: no real nonnegative root"
  else
    .ok (calculate_sigma firstMean secondMean maxValue)

/-- The sorted mean list built by `generate_progressive_gausses`:
`[0, middle, 1]` plus a left/right pair of sine-offset means for each of
`(n - 3) // 2` rounds (`arg = exp(-(left_to_calc - i))`), sorted (Python
`sorted` modelled as insertion sort). -/
noncomputable def progressiveMeans (numberOfGausses : ℕ) (middle : ℝ) : List ℝ :=
  ([0, middle, 1] ++ (List.range ((numberOfGausses - 3) / 2)).flatMap fun i =>
    [calculate_expected_value
        (-(Real.exp (-((((numberOfGausses - 3) / 2 : ℕ) : ℝ) - (i : ℝ))))) middle,
      calculate_expected_value
        (Real.exp (-((((numberOfGausses - 3) / 2 : ℕ) : ℝ) - (i : ℝ)))) middle]
    ).insertionSort (· ≤ ·)

/-- `generate_progressive_gausses(number_of_gausses, middle, max_value)`:
raises for fewer than 3 Gaussians; otherwise builds the sorted means
`progressiveMeans`, solves one sigma per adjacent mean pair — propagating the
first sigma-solve failure, see `solveSigma` — pads the sigma lists
(`first_sigmas.append(first_sigmas[-1])`, `second_sigmas.insert(0, ...)` —
the sigma list is never empty at that point, so the `getLastD` default is
unreachable), and builds one `complex_gaussian` per mean bounded by its
domain neighbours (`-np.inf` / `np.inf` at the extremes).  The Python
three-way `zip` truncates to the number of means, modelled by indexing over
`List.range` of that length. -/
noncomputable def generate_progressive_gausses (numberOfGausses : ℕ) (middle maxValue : ℝ) :
    Except String (List (ℝ → ℝ)) :=
  if numberOfGausses < 3 then
    .error "Number of gausses must be >= 3 for progressive distribution"
  else
    match ((progressiveMeans numberOfGausses middle).zip
        (progressiveMeans numberOfGausses middle).tail).mapM
        (fun p => solveSigma p.1 p.2 maxValue) with
    | .error e => .error e
    | .ok firstSigmas0 =>
      let expectedValues := progressiveMeans numberOfGausses middle
      let firstSigmas := firstSigmas0 ++ [firstSigmas0.getLastD 0]
      let secondSigmas := firstSigmas0.getLastD 0 :: firstSigmas0
      let extended : List EReal := ⊥ :: (expectedValues.map fun x : ℝ => (x : EReal)) ++ [⊤]
      .ok ((List.range expectedValues.length).map fun j =>
        complex_gaussian (expectedValues.getD j 0) (secondSigmas.getD j 0)
          (firstSigmas.getD j 0) (extended.getD j ⊥) (extended.getD (j + 2) ⊤) maxValue)

/-- Flat-mapping a two-element-producing function doubles the length. -/
lemma length_flatMap_pairs {α : Type} (g h : ℕ → α) (l : List ℕ) :
    (l.flatMap fun i => [g i, h i]).length = 2 * l.length := by
  induction l with
  | nil => rfl
  | cons a t ih =>
    rw [List.flatMap_cons, List.length_append, ih, List.length_cons]
    simp only [List.length_cons, List.length_nil]
    omega

/-- The mean list always has `3 + 2 * ((n - 3) // 2)` entries. -/
lemma progressiveMeans_length (n : ℕ) (middle : ℝ) :
    (progressiveMeans n middle).length = 3 + 2 * ((n - 3) / 2) := by
  unfold progressiveMeans
  rw [(List.perm_insertionSort _ _).length_eq, List.length_append,
    length_flatMap_pairs _ _ _, List.length_range]
  rfl

/-- Adjacent-pair property extracted from `Chain'` via `zip` with the tail. -/
lemma chain'_zip_tail {α : Type} {R : α → α → Prop} (l : List α) (h : l.Chain' R) :
    ∀ p ∈ l.zip l.tail, R p.1 p.2 := by
  induction l with
  | nil =>
    intro p hp
    simp at hp
  | cons a t ih =>
    intro p hp
    cases t with
    | nil => simp at hp
    | cons b t' =>
      rw [List.chain'_cons] at h
      rw [show (a :: b :: t').tail = b :: t' from rfl, List.zip_cons_cons] at hp
      rcases List.mem_cons.mp hp with h1 | h2
      · subst h1
        exact h.1
      · exact ih h.2 p h2

/-- `mapM` over `Except` succeeds, preserving length, when every element
maps to a success. -/
lemma mapM_ok_of_forall_ok {α β : Type} (f : α → Except String β) (l : List α)
    (h : ∀ a ∈ l, ∃ v, f a = .ok v) :
    ∃ out : List β, l.mapM f = .ok out ∧ out.length = l.length := by
  induction l with
  | nil => exact ⟨[], rfl, rfl⟩
  | cons a t ih =>
    obtain ⟨v, hv⟩ := h a (List.mem_cons_self a t)
    obtain ⟨out, hout, hlen⟩ := ih fun x hx => h x (List.mem_cons_of_mem a hx)
    refine ⟨v :: out, ?_, by simp [hlen]⟩
    rw [List.mapM_cons, hv, hout]
    rfl

/-- `mapM` over `Except` fails as soon as the head fails. -/
lemma mapM_error_of_head {α β : Type} (f : α → Except String β) (a : α) (t : List α)
    (e : String) (ha : f a = .error e) : (a :: t).mapM f = .error e := by
  rw [List.mapM_cons, ha]
  rfl

/-- Out-of-range `max_value` fails the sigma solve for any pair of means. -/
lemma solveSigma_error (m1 m2 maxValue : ℝ) (h : maxValue ≤ 0 ∨ 2 ≤ maxValue) :
    ∃ e, solveSigma m1 m2 maxValue = .error e := by
  unfold solveSigma
  by_cases heq : m1 = m2
  · rw [if_pos heq]
    exact ⟨_, rfl⟩
  · rw [if_neg heq, if_pos h]
    exact ⟨_, rfl⟩

/-- C10 (amended): `generate_progressive_gausses(n, middle, max_value)`
raises for `n < 3`; for `n ≥ 3` it also raises whenever the per-pair sigma
solve fails — in particular for every `max_value ≤ 0` or `max_value ≥ 2`,
and when two generated means coincide; when every solve succeeds
(`0 < max_value < 2` and the sorted means pairwise distinct, as with the
defaults `middle = 0.5`, `max_value = 1` for small `n`) it returns exactly
`3 + 2 * ((n - 3) // 2)` composite Gaussians — `n` of them when `n` is odd,
but only `n - 1` (one fewer than requested) for every even `n ≥ 4`, because
each round past the three seed means adds two means and an odd remainder is
dropped. -/
theorem progressive_gausses_count (n : ℕ) (middle maxValue : ℝ) :
    (n < 3 → generate_progressive_gausses n middle maxValue
        = .error "Number of gausses must be >= 3 for progressive distribution")
    ∧ (3 ≤ n → maxValue ≤ 0 ∨ 2 ≤ maxValue →
        ∃ e, generate_progressive_gausses n middle maxValue = .error e)
    ∧ (3 ≤ n → 0 < maxValue → maxValue < 2 →
        (progressiveMeans n middle).Chain' (· ≠ ·) →
        ∃ gs, generate_progressive_gausses n middle maxValue = .ok gs
          ∧ gs.length = 3 + 2 * ((n - 3) / 2))
    ∧ (3 ≤ n → n % 2 = 1 → 0 < maxValue → maxValue < 2 →
        (progressiveMeans n middle).Chain' (· ≠ ·) →
        ∃ gs, generate_progressive_gausses n middle maxValue = .ok gs
          ∧ gs.length = n)
    ∧ (4 ≤ n → n % 2 = 0 → 0 < maxValue → maxValue < 2 →
        (progressiveMeans n middle).Chain' (· ≠ ·) →
        ∃ gs, generate_progressive_gausses n middle maxValue = .ok gs
          ∧ gs.length = n - 1) := by
  have hmain : 3 ≤ n → 0 < maxValue → maxValue < 2 →
      (progressiveMeans n middle).Chain' (· ≠ ·) →
      ∃ gs, generate_progressive_gausses n middle maxValue = .ok gs
        ∧ gs.length = 3 + 2 * ((n - 3) / 2) := by
    intro h3 hm0 hm2 hchain
    have hsolves : ∀ p ∈ (progressiveMeans n middle).zip (progressiveMeans n middle).tail,
        ∃ v, solveSigma p.1 p.2 maxValue = .ok v := by
      intro p hp
      have hne : p.1 ≠ p.2 := chain'_zip_tail _ hchain p hp
      unfold solveSigma
      rw [if_neg hne, if_neg (by push_neg; exact ⟨hm0, hm2⟩)]
      exact ⟨_, rfl⟩
    obtain ⟨fs0, hfs0, _⟩ :=
      mapM_ok_of_forall_ok (fun p : ℝ × ℝ => solveSigma p.1 p.2 maxValue) _ hsolves
    unfold generate_progressive_gausses
    rw [if_neg (by omega), hfs0]
    refine ⟨_, rfl, ?_⟩
    rw [List.length_map, List.length_range, progressiveMeans_length]
  refine ⟨fun h => ?_, fun h3 hbad => ?_, hmain, fun h3 hodd hm0 hm2 hc => ?_,
    fun h4 heven hm0 hm2 hc => ?_⟩
  · unfold generate_progressive_gausses
    rw [if_pos h]
  · have hzlen : 0 < ((progressiveMeans n middle).zip (progressiveMeans n middle).tail).length := by
      rw [List.length_zip, List.length_tail, progressiveMeans_length]
      omega
    rcases hz : (progressiveMeans n middle).zip (progressiveMeans n middle).tail with
      _ | ⟨p, rest⟩
    · rw [hz] at hzlen
      simp at hzlen
    · obtain ⟨e, he⟩ := solveSigma_error p.1 p.2 maxValue hbad
      refine ⟨e, ?_⟩
      unfold generate_progressive_gausses
      rw [if_neg (by omega), hz,
        mapM_error_of_head (fun q : ℝ × ℝ => solveSigma q.1 q.2 maxValue) p rest e he]
  · obtain ⟨gs, hok, hlen⟩ := hmain h3 hm0 hm2 hc
    exact ⟨gs, hok, by omega⟩
  · obtain ⟨gs, hok, hlen⟩ := hmain (by omega) hm0 hm2 hc
    exact ⟨gs, hok, by omega⟩

/-- For `n = 3` and `n = 4` with `middle = 1/2` no offset rounds run, and the
seed means are already sorted. -/
lemma progressiveMeans_small (n : ℕ) (h : (n - 3) / 2 = 0) :
    progressiveMeans n (1/2 : ℝ) = [0, 1/2, 1] := by
  unfold progressiveMeans
  rw [h]
  rw [show ∀ f : ℕ → List ℝ, (List.range 0).flatMap f = [] from fun _ => rfl,
    List.append_nil]
  exact List.Sorted.insertionSort_eq (by norm_num [List.sorted_cons])

/-- Witness for `progressive_gausses_count` at the odd count `n = 3` and the
even count `n = 4` (which yields only 3 Gaussians), with the defaults
`middle = 1/2`, `max_value = 1` under which every sigma solve succeeds. -/
theorem progressive_gausses_count_witness :
    ((3 : ℕ) ≤ 3 ∧ (3 : ℕ) % 2 = 1 ∧ (0 : ℝ) < 1 ∧ (1 : ℝ) < 2
      ∧ (progressiveMeans 3 (1/2)).Chain' (· ≠ ·)
      ∧ ∃ gs, generate_progressive_gausses 3 (1/2) 1 = .ok gs ∧ gs.length = 3)
    ∧ ((4 : ℕ) ≤ 4 ∧ (4 : ℕ) % 2 = 0 ∧ (progressiveMeans 4 (1/2)).Chain' (· ≠ ·)
      ∧ ∃ gs, generate_progressive_gausses 4 (1/2) 1 = .ok gs ∧ gs.length = 4 - 1) := by
  have hc3 : (progressiveMeans 3 (1/2)).Chain' (· ≠ ·) := by
    rw [progressiveMeans_small 3 rfl]
    norm_num [List.chain'_cons]
  have hc4 : (progressiveMeans 4 (1/2)).Chain' (· ≠ ·) := by
    rw [progressiveMeans_small 4 rfl]
    norm_num [List.chain'_cons]
  exact ⟨⟨by norm_num, by norm_num, by norm_num, by norm_num, hc3,
      (progressive_gausses_count 3 (1/2) 1).2.2.2.1 (by norm_num) (by norm_num)
        (by norm_num) (by norm_num) hc3⟩,
    ⟨by norm_num, by norm_num, hc4,
      (progressive_gausses_count 4 (1/2) 1).2.2.2.2 (by norm_num) (by norm_num)
        (by norm_num) (by norm_num) hc4⟩⟩

/-- C10 (counterexample): at `n = 4 ≥ 3`, `middle = 0.5`, `max_value = 3`
the sigma solve fails (no real nonnegative root for `max_value ≥ 2`) and
`generate_progressive_gausses` raises instead of returning the claimed list
of `3 + 2 * ((4 - 3) // 2) = 3` composite Gaussians. -/
theorem progressive_gausses_sigma_counterexample :
    generate_progressive_gausses 4 (1/2) 3
      = .error "sigma solve failed: no real nonnegative root" := by
  have hmeans : progressiveMeans 4 (1/2) = [0, 1/2, 1] := progressiveMeans_small 4 rfl
  have hsig : solveSigma 0 (1/2 : ℝ) 3 = .error "sigma solve failed: no real nonnegative root" := by
    unfold solveSigma
    rw [if_neg (by norm_num), if_pos (by norm_num)]
  unfold generate_progressive_gausses
  rw [if_neg (by norm_num), hmeans]
  rw [show ([0, 1/2, 1] : List ℝ).zip ([0, 1/2, 1] : List ℝ).tail
    = [(0, 1/2), (1/2, 1)] from rfl]
  rw [mapM_error_of_head (fun q : ℝ × ℝ => solveSigma q.1 q.2 3) (0, 1/2) [(1/2, 1)]
    "sigma solve failed: no real nonnegative root" hsig]

/-! ### Triangular and trapezoidal generators and the factory mode dispatch
(`membership_functions.py`, `fuzzyLib/utils/grouping_functions.py`) -/

/-- `triangular(l_end, center, r_end, max_value)`: the indicator products
`(value <= center)` / `(value > center)` become 0/1 factors. -/
noncomputable def triangularF (lEnd center rEnd maxValue : ℝ) : ℝ → ℝ :=
  fun value =>
    min 1 (max 0 (maxValue * (value - lEnd) / (center - lEnd)
        * (if value ≤ center then 1 else 0)
      + maxValue * ((rEnd - value) / (rEnd - center))
        * (if center < value then 1 else 0)))

/-- `trapezoidal(l_end, l_center, r_center, r_end, max_value)`. -/
noncomputable def trapezoidalF (lEnd lCenter rCenter rEnd maxValue : ℝ) : ℝ → ℝ :=
  fun value =>
    min 1 (max 0 (maxValue * ((value - lEnd) / (lCenter - lEnd))
        * (if value ≤ lCenter then 1 else 0)
      + maxValue * ((rEnd - value) / (rEnd - rCenter))
        * (if rCenter ≤ value then 1 else 0)
      + maxValue * ((if lCenter < value then 1 else 0)
        * (if value < rCenter then 1 else 0))))

/-- `generate_even_triangulars(n_mfs, start, end, max_value)`: the running
`start` of the source loop is written in closed form `start + i * step`. -/
noncomputable def generate_even_triangulars (nMfs : ℕ) (start stop maxValue : ℝ) :
    List (ℝ → ℝ) :=
  let step := (stop - start) / ((nMfs : ℝ) + 1)
  (List.range nMfs).map fun i : ℕ =>
    triangularF (start + i * step) (start + i * step + step) (start + i * step + 2 * step)
      maxValue

/-- `generate_full_triangulars(n_mfs, start, end, max_value)`: boundary
triangles extended by the fixed epsilon 0.001 past the domain edges. -/
noncomputable def generate_full_triangulars (nMfs : ℕ) (start stop maxValue : ℝ) :
    List (ℝ → ℝ) :=
  let step := (stop - start) / ((nMfs : ℝ) - 1)
  [triangularF (start - 1/1000) start (start + step) maxValue]
    ++ ((List.range (nMfs - 2)).map fun i : ℕ =>
      triangularF (start + i * step) (start + i * step + step) (start + i * step + 2 * step)
        maxValue)
    ++ [triangularF (stop - step) stop (stop + 1/1000) maxValue]

/-- `generate_even_trapezoidals(n_mfs, start, end, max_value)`. -/
noncomputable def generate_even_trapezoidals (nMfs : ℕ) (start stop maxValue : ℝ) :
    List (ℝ → ℝ) :=
  let step := (stop - start) / (2 * (nMfs : ℝ) + 1)
  (List.range nMfs).map fun i : ℕ =>
    trapezoidalF (start + 2 * i * step) (start + 2 * i * step + step)
      (start + 2 * i * step + 2 * step) (start + 2 * i * step + 3 * step) maxValue

/-- `generate_full_trapezoidals(n_mfs, start, end, max_value)`: boundary
members are trapezoids, but every interior member is generated as a
triangle (source behaviour, preserved). -/
noncomputable def generate_full_trapezoidals (nMfs : ℕ) (start stop maxValue : ℝ) :
    List (ℝ → ℝ) :=
  let step := (stop - start) / (2 * (nMfs : ℝ) - 1)
  [trapezoidalF (start - 1/1000) start (start + step) (start + 2 * step) maxValue]
    ++ ((List.range (nMfs - 2)).map fun i : ℕ =>
      triangularF (start + (i + 1) * step) (start + (i + 2) * step) (start + (i + 3) * step)
        maxValue)
    ++ [trapezoidalF (stop - 2 * step) (stop - step) stop (stop + 1/1000) maxValue]

/-- A Python exception value, distinguished by its class. -/
inductive PyErr where
  | typeError (msg : String)
  | valueError (msg : String)
  | exception (msg : String)
  deriving DecidableEq

/-- What `raise NotImplemented(f'...')` actually raises.  `NotImplemented` is
Python's non-callable sentinel singleton, not the `NotImplementedError`
class: evaluating the call expression raises
`TypeError("'NotImplementedType' object is not callable")` before the
`raise` statement runs, and the formatted message naming the invalid mode is
discarded. -/
def notImplementedCallError : PyErr :=
  .typeError "\x27NotImplementedType\x27 object is not callable"

/-- `create_gausses_t1(n_mfs, middle_val, domain, mode, ...)`: the mode
dispatch of `grouping_functions.py`, keeping the default `max_value = 1` of
the generators it calls; the domain enters as
`(domain.min, domain.max - domain.precision)`. -/
noncomputable def create_gausses_t1 (nMfs : ℕ) (middleVal dmin dmax dprec : ℝ)
    (mode : String) : Except PyErr (List (ℝ → ℝ)) :=
  if mode = "equal" ∨ mode = "default" then
    .ok (generate_equal_gausses nMfs dmin (dmax - dprec) 1)
  else if mode = "progressive" then
    match generate_progressive_gausses nMfs middleVal 1 with
    | .ok gs => .ok gs
    | .error e => .error (.exception e)
  else
    .error notImplementedCallError

/-- `create_triangular_t1(n_mfs, domain, mode)`. -/
noncomputable def create_triangular_t1 (nMfs : ℕ) (dmin dmax dprec : ℝ)
    (mode : String) : Except PyErr (List (ℝ → ℝ)) :=
  if mode = "equal" ∨ mode = "default" then
    .ok (generate_even_triangulars nMfs dmin (dmax - dprec) 1)
  else if mode = "full" then
    .ok (generate_full_triangulars nMfs dmin (dmax - dprec) 1)
  else
    .error notImplementedCallError

/-- `create_trapezoidal_t1(n_mfs, domain, mode)`. -/
noncomputable def create_trapezoidal_t1 (nMfs : ℕ) (dmin dmax dprec : ℝ)
    (mode : String) : Except PyErr (List (ℝ → ℝ)) :=
  if mode = "equal" ∨ mode = "default" then
    .ok (generate_even_trapezoidals nMfs dmin (dmax - dprec) 1)
  else if mode = "full" then
    .ok (generate_full_trapezoidals nMfs dmin (dmax - dprec) 1)
  else
    .error notImplementedCallError

/-- `pat` occurs as a contiguous substring of `s`. -/
def strContains (s pat : String) : Prop := pat.toList <:+: s.toList

instance (s pat : String) : Decidable (strContains s pat) := by
  unfold strContains
  infer_instance

/-- C8 (the code, evaluated at the failing input): calling any of the three
factory functions with the unsupported mode string `"weird"` raises — but it
raises the constant `TypeError` produced by calling the non-callable
`NotImplemented` singleton, whose message does not name (or even contain)
the invalid value.  The claim (and the spec) require an error naming the
invalid value, which is what `raise NotImplementedError(f'...')` — the
evident intent — would have produced. -/
theorem unimplemented_mode_typeerror :
    create_gausses_t1 3 (1/2) 0 (1001/1000) (1/1000) "weird" = .error notImplementedCallError
    ∧ create_triangular_t1 3 0 (1001/1000) (1/1000) "weird" = .error notImplementedCallError
    ∧ create_trapezoidal_t1 3 0 (1001/1000) (1/1000) "weird" = .error notImplementedCallError
    ∧ notImplementedCallError
        = .typeError "\x27NotImplementedType\x27 object is not callable"
    ∧ ¬strContains "\x27NotImplementedType\x27 object is not callable" "weird" := by
  refine ⟨?_, ?_, ?_, rfl, by decide⟩
  · unfold create_gausses_t1
    rw [if_neg (by decide), if_neg (by decide)]
  · unfold create_triangular_t1
    rw [if_neg (by decide), if_neg (by decide)]
  · unfold create_trapezoidal_t1
    rw [if_neg (by decide), if_neg (by decide)]

end FuzzyLib
